import Mathlib

/-!
The `devices` and `start` subcommands of wag.

A shallow embedding of `src/commands/devices.go` and `src/commands/start.go`.

The packages `wag/database`, `wag/control`, `wag/config`, `router`, `server`,
`webserver` and `ui` are not part of the two source files. Their functions are
taken as parameters (`Env`, `StartEnv`): every theorem about `devices.Run`,
`devices.Init` and `start.Run` holds for every implementation of them. Concrete
instances, modelled from the specification, are used to instantiate the
theorems on concrete inputs.

Go's `error` values are `Option String`: `none` is `nil`, `some msg` is an error
whose `Error()` text is `msg`. Every external call made by the code is appended
to a call log, so that "is never called" and "exactly one write" are statements
about that log.
-/

namespace Wag

/-! ## Machine integers -/

/-- Smallest value of Go's `int` on a 64-bit target. -/
def minInt : Int := -9223372036854775808

/-- Largest value of Go's `int` on a 64-bit target. -/
def maxInt : Int := 9223372036854775807

/-- Two's complement wrap-around of a mathematical integer into Go's 64-bit `int`. -/
def wrapInt (x : Int) : Int := (x + 9223372036854775808) % 18446744073709551616 - 9223372036854775808

/-- Go's `a + b` on `int`. -/
def addInt (a b : Int) : Int := wrapInt (a + b)

/-! ## Data model -/

/-- The device record returned by `database.GetDevices`, with the five fields
that `devices.Run` reads. -/
structure Device where
  Username : String
  Address : String
  Publickey : String
  Enforcing : Bool
  Attempts : Int
deriving DecidableEq

/-- One external call issued by the `devices` subcommand. -/
inductive Call where
  | Load : Call
  | DeleteDevice : String → Call
  | SetAttempts : String → Int → Call
  | GetDevices : Call
  | Block : String → Call
  | Sessions : Call
deriving DecidableEq

/-- The packages used by `devices.go`, over a device store state `σ` and a
control-plane (session and enforcement) state `ν`. A mutating call returns the
state it leaves behind together with its error; the store and the control plane
are distinct components (the Enforcement Synchronizer never writes to the
Device Store). -/
structure Env (σ ν : Type) where
  /-- The value `config.Values().Lockout`. -/
  Lockout : Int
  /-- The function `database.Load(DatabaseLocation, Issuer, Lockout)`. -/
  Load : σ → σ × Option String
  /-- The function `database.DeleteDevice(address)`. -/
  DeleteDevice : σ → String → σ × Option String
  /-- The function `database.SetAttempts(address, attempts)`. -/
  SetAttempts : σ → String → Int → σ × Option String
  /-- The function `database.GetDevices()`. -/
  GetDevices : σ → List Device × Option String
  /-- The function `control.Block(address)`. -/
  Block : ν → String → ν × Option String
  /-- The function `control.Sessions()`. -/
  Sessions : ν → String × Option String

/-- Everything a run of the subcommand can observe or change: the device store,
the control plane, the chunks written to standard output, and the call log. -/
structure World (σ ν : Type) where
  store : σ
  net : ν
  stdout : List String
  calls : List Call

/-- The Go struct `flag.FlagSet`, reduced to what `devices.go` uses: its name and
the names of the flags that have been set (the keys of the map `actual`). -/
structure FlagSet where
  name : String
  actual : List String
deriving DecidableEq

/-- The Go struct `devices`. -/
structure devices where
  fs : FlagSet
  address : String
  action : String
deriving DecidableEq

/-! ## Formatting -/

/-- The verb `%t` of `fmt.Printf`. -/
def fmtBool (b : Bool) : String := if b then "true" else "false"

/-- The verb `%d` of `fmt.Printf` on an `int`. -/
def fmtInt (n : Int) : String :=
  match n with
  | Int.ofNat k => Nat.repr k
  | Int.negSucc k => "-" ++ Nat.repr (k + 1)

/-- The text written by
`fmt.Printf("%s,%s,%s,%t,%d\n", Username, Address, Publickey, Enforcing, Attempts)`. -/
def deviceLine (device : Device) : String :=
  device.Username ++ "," ++ device.Address ++ "," ++ device.Publickey ++ ","
    ++ fmtBool device.Enforcing ++ "," ++ fmtInt device.Attempts ++ "\n"

/-- The text written by `fmt.Println(s)`. -/
def println (s : String) : String := s ++ "\n"

/-! ## devices.Run -/

/-- The method `devices.Run`: the returned error and the world it leaves. -/
def devices.Run {σ ν : Type} (env : Env σ ν) (w : World σ ν) (g : devices) :
    Option String × World σ ν :=
  if g.action = "del" then
    let r := env.DeleteDevice w.store g.address
    let w1 := { w with store := r.1, calls := w.calls ++ [Call.DeleteDevice g.address] }
    match r.2 with
    | some e => (some ("Could not delete token: " ++ e), w1)
    | none =>
      let b := env.Block w1.net g.address
      let w2 := { w1 with net := b.1, calls := w1.calls ++ [Call.Block g.address] }
      match b.2 with
      | some e => (some e, w2)
      | none => (none, { w2 with stdout := w2.stdout ++ [println "OK"] })
  else if g.action = "list" then
    let r := env.GetDevices w.store
    let w1 := { w with calls := w.calls ++ [Call.GetDevices] }
    match r.2 with
    | some e => (some e, w1)
    | none =>
      let header := println "username,address,publickey,enforcingmfa,authattempts"
      (none, { w1 with stdout := w1.stdout ++ [header] ++ List.map deviceLine r.1 })
  else if g.action = "sessions" then
    let r := env.Sessions w.net
    let w1 := { w with calls := w.calls ++ [Call.Sessions] }
    match r.2 with
    | some e => (some e, w1)
    | none =>
      let header := println "vpn_address,actual_endpoint"
      (none, { w1 with stdout := w1.stdout ++ [header, println r.1] })
  else if g.action = "lock" then
    let n := addInt env.Lockout 1
    let r := env.SetAttempts w.store g.address n
    let w1 := { w with store := r.1, calls := w.calls ++ [Call.SetAttempts g.address n] }
    match r.2 with
    | some e => (some ("Could not lock device: " ++ e), w1)
    | none =>
      let b := env.Block w1.net g.address
      let w2 := { w1 with net := b.1, calls := w1.calls ++ [Call.Block g.address] }
      match b.2 with
      | some e => (some e, w2)
      | none => (none, { w2 with stdout := w2.stdout ++ [println "OK"] })
  else if g.action = "reset" then
    let r := env.SetAttempts w.store g.address 0
    let w1 := { w with store := r.1, calls := w.calls ++ [Call.SetAttempts g.address 0] }
    match r.2 with
    | some e => (some ("Could not reset device authentication attempts: " ++ e), w1)
    | none => (none, { w1 with stdout := w1.stdout ++ [println "OK"] })
  else
    (none, w)

/-! ## The flag set of `Devices()` -/

/-- The boolean flags registered by `Devices()` with `gc.fs.Bool`. -/
def boolFlags : List String := ["del", "list", "sessions", "reset", "lock"]

/-- The names of all flags registered by `Devices()`, in the order of names in
which `flag.FlagSet.Visit` walks them (lexicographic). -/
def formalSorted : List String := ["del", "device", "list", "lock", "reset", "sessions"]

/-- The function `Devices()`: a fresh command with no flag set, the default
`""` of `-device` as address and the zero value as action. -/
def Devices : devices :=
  { fs := { name := "devices", actual := [] }, address := "", action := "" }

/-- The texts accepted by `strconv.ParseBool`, which reads the value of a boolean
flag written `-name=value`. -/
def parseBool (s : String) : Option Bool :=
  if s ∈ ["1", "t", "T", "TRUE", "true", "True"] then some true
  else if s ∈ ["0", "f", "F", "FALSE", "false", "False"] then some false
  else none

/-- The hexadecimal digit of a number below 16, in lower case. -/
def hexDigit (n : Nat) : Char :=
  if n < 10 then Char.ofNat (48 + n) else Char.ofNat (87 + n)

/-- The escape that `strconv.Quote` writes for one character: a backslash before
a double quote or a backslash, the letter escapes of the control characters,
`\x` and two hexadecimal digits for the other characters below the space and
for DEL, and the character itself otherwise (characters beyond ASCII are taken
as printable). -/
def quoteChar (c : Char) : List Char :=
  if c = '"' then ['\\', '"']
  else if c = '\\' then ['\\', '\\']
  else if c.toNat = 7 then ['\\', 'a']
  else if c.toNat = 8 then ['\\', 'b']
  else if c.toNat = 12 then ['\\', 'f']
  else if c.toNat = 10 then ['\\', 'n']
  else if c.toNat = 13 then ['\\', 'r']
  else if c.toNat = 9 then ['\\', 't']
  else if c.toNat = 11 then ['\\', 'v']
  else if c.toNat < 32 ∨ c.toNat = 127 then
    ['\\', 'x', hexDigit (c.toNat / 16), hexDigit (c.toNat % 16)]
  else [c]

/-- The verb `%q` of `fmt` on a string: the text between double quotes, escaped
as by `strconv.Quote`. -/
def fmtQuote (s : String) : String :=
  String.mk (['"'] ++ (s.data.map quoteChar).flatten ++ ['"'])

/-- The loop of `parseOne` that cuts `name=value` at the first `=` after the
first character; `none` when there is no value. -/
def splitValue (name : List Char) : List Char × Option (List Char) :=
  match name with
  | [] => ([], none)
  | c :: rest =>
    match rest.span (fun x => x != '=') with
    | (pre, []) => (c :: pre, none)
    | (pre, _ :: value) => (c :: pre, some value)

/-- The flag name and its attached value in the argument `s`, or the reason why
`s` is not a flag: `Sum.inl true` for the terminator `--`, `Sum.inl false` for a
non-flag argument, both of which end parsing, and `Sum.inr none` for bad
syntax. -/
def flagName (s : String) : Bool ⊕ Option (String × Option String) :=
  match s.data with
  | '-' :: c1 :: tl =>
    let name := if c1 = '-' then tl else c1 :: tl
    if c1 = '-' ∧ tl = [] then Sum.inl true
    else
      match name with
      | [] => Sum.inr none
      | c :: _ =>
        if c = '-' ∨ c = '=' then Sum.inr none
        else
          let nv := splitValue name
          Sum.inr (some (String.mk nv.1, nv.2.map String.mk))
  | _ => Sum.inl false

/-- The method `flag.FlagSet.Parse` of Go's standard library on the flag set of
`Devices()` (error handling `ContinueOnError`): the flag set with the flags that
were set recorded in `actual`, the value bound to `-device` by `StringVar`, and
the error. Usage text written to standard error is not modelled. -/
def FlagSet.Parse (fs : FlagSet) (address : String) :
    List String → FlagSet × String × Option String
  | [] => (fs, address, none)
  | s :: rest =>
    match flagName s with
    | Sum.inl _ => (fs, address, none)
    | Sum.inr none => (fs, address, some ("bad flag syntax: " ++ s))
    | Sum.inr (some (name, value)) =>
      if name ∈ boolFlags then
        match value with
        | some v =>
          match parseBool v with
          | some _ => FlagSet.Parse { fs with actual := name :: fs.actual } address rest
          | none =>
            (fs, address, some ("invalid boolean value " ++ fmtQuote v ++ " for -" ++ name
              ++ ": parse error"))
        | none => FlagSet.Parse { fs with actual := name :: fs.actual } address rest
      else if name = "device" then
        match value with
        | some v => FlagSet.Parse { fs with actual := name :: fs.actual } v rest
        | none =>
          match rest with
          | [] => (fs, address, some ("flag needs an argument: -" ++ name))
          | v :: rest2 => FlagSet.Parse { fs with actual := name :: fs.actual } v rest2
      else if name = "help" ∨ name = "h" then (fs, address, some "flag: help requested")
      else (fs, address, some ("flag provided but not defined: -" ++ name))

/-- The method `flag.FlagSet.Visit`: calls `fn` on every flag that has been set,
in lexicographic order of the names. -/
def FlagSet.Visit {α : Type} (fs : FlagSet) (fn : String → α → α) (init : α) : α :=
  (formalSorted.filter (fun n => decide (n ∈ fs.actual))).foldl (fun acc n => fn n acc) init

/-- The function `strings.ToLower` on ASCII text (flag names and the zero value
are the only texts `Init` applies it to). -/
def toLower (s : String) : String := String.mk (s.data.map Char.toLower)

/-- The function literal passed to `Visit` in `Init`. -/
def visitAction (name : String) (action : String) : String :=
  if name = "reset" ∨ name = "del" ∨ name = "list" ∨ name = "lock" ∨ name = "sessions" then
    toLower name
  else action

/-! ## devices.Init -/

/-- The call `database.Load(...)` that ends `Init`, with its error wrapped by
`fmt.Errorf("Cannot load database: %v", err)`. -/
def devices.loadDatabase {σ ν : Type} (env : Env σ ν) (w : World σ ν) (g : devices) :
    Option String × devices × World σ ν :=
  let r := env.Load w.store
  let w1 := { w with store := r.1, calls := w.calls ++ [Call.Load] }
  match r.2 with
  | some e => (some ("Cannot load database: " ++ e), g, w1)
  | none => (none, g, w1)

/-- The method `devices.Init`: the returned error, the command it leaves and the
world it leaves. -/
def devices.Init {σ ν : Type} (env : Env σ ν) (w : World σ ν) (g : devices)
    (args : List String) : Option String × devices × World σ ν :=
  let p := g.fs.Parse g.address args
  let g1 := { g with fs := p.1, address := p.2.1 }
  match p.2.2 with
  | some e => (some e, g1, w)
  | none =>
    let g2 := { g1 with action := g1.fs.Visit visitAction g1.action }
    let g3 := { g2 with action := toLower g2.action }
    if g3.action = "del" ∨ g3.action = "reset" ∨ g3.action = "lock" then
      if g3.address = "" then (some "Device must be supplied", g3, w)
      else devices.loadDatabase env w g3
    else if g3.action = "list" ∨ g3.action = "sessions" then
      devices.loadDatabase env w g3
    else (some "Invalid action choice", g3, w)

/-- The action flag that wins when the flags named in `actual` have been set: the
one whose name comes last in lexicographic order, `""` when none is set. -/
def selectedAction (actual : List String) : String :=
  if "sessions" ∈ actual then "sessions"
  else if "reset" ∈ actual then "reset"
  else if "lock" ∈ actual then "lock"
  else if "list" ∈ actual then "list"
  else if "del" ∈ actual then "del"
  else ""

/-! ## start.Run -/

/-- The Go struct `start`. -/
structure start where
  fs : FlagSet
  config : String
  noIptables : Bool
deriving DecidableEq

/-- One external call issued by `start.Run` (logging is not modelled). -/
inductive StartCall where
  | Remove : StartCall
  | Setup : Bool → StartCall
  | StartControlSocket : StartCall
  | WebserverStart : StartCall
  | UIStartWebServer : StartCall
  | RouterTearDown : StartCall
  | ServerTearDown : StartCall
deriving DecidableEq

/-- What `start.Run` gets from the packages it calls: whether `os.Stat` finds the
upgrade marker file, the errors of `router.Setup(error, iptables)`,
`server.StartControlSocket()` and `webserver.Start(error)`, and the value that
the receive `<-error` yields once one arrives on the channel. -/
structure StartEnv where
  upgraded : Bool
  Setup : Bool → Option String
  StartControlSocket : Option String
  WebserverStart : Option String
  received : Option String

/-- The function `strings.Contains` on lists of characters. -/
def containsChars : List Char → List Char → Bool
  | [], substr => substr.isEmpty
  | c :: s, substr => substr.isPrefixOf (c :: s) || containsChars s substr

/-- The function `strings.Contains`. -/
def contains (s substr : String) : Bool := containsChars s.data substr.data

/-- One deferred teardown handler of `start.Run`, run with the value `err` of the
captured variable: `none` when `err.Error()` is called on a nil error (a
panic), otherwise the teardown calls it makes. -/
def teardownHandler (err : Option String) (teardown : StartCall) : Option (List StartCall) :=
  match err with
  | none => none
  | some e =>
    if !(contains e "listen unix" && contains e "address already in use") then some [teardown]
    else some []

/-- A finished run of `start.Run`: the returned error (meaningful when no handler
panicked), the value of the captured variable `err` that each deferred handler
read, in the order in which the handlers ran, whether a handler panicked, and
the calls made. -/
structure StartResult where
  ret : Option String
  handlerErr : List (Option String)
  panicked : Bool
  calls : List StartCall
deriving DecidableEq

/-- The exit of `start.Run`: the deferred handlers, last registered first, all
read the final value `err` of the captured variable; a handler that panics does
not stop the ones registered before it from running. -/
def runDeferred (err : Option String) (ret : Option String) (calls : List StartCall) :
    List StartCall → StartResult
  | [] => { ret := ret, handlerErr := [], panicked := false, calls := calls }
  | teardown :: deferred =>
    match teardownHandler err teardown with
    | none =>
      let r := runDeferred err ret calls deferred
      { r with handlerErr := err :: r.handlerErr, panicked := true }
    | some cs =>
      let r := runDeferred err ret (calls ++ cs) deferred
      { r with handlerErr := err :: r.handlerErr }

/-- The method `start.Run`. -/
def start.Run (env : StartEnv) (g : start) : StartResult :=
  let g1 := if env.upgraded then { g with noIptables := true } else g
  let c0 := if env.upgraded then [StartCall.Remove] else []
  let c1 := c0 ++ [StartCall.Setup (!g1.noIptables)]
  match env.Setup (!g1.noIptables) with
  | some e => runDeferred (some e) (some ("unable to start router: " ++ e)) c1 []
  | none =>
    let c2 := c1 ++ [StartCall.StartControlSocket]
    match env.StartControlSocket with
    | some e =>
      runDeferred (some e) (some ("unable to create control socket: " ++ e)) c2
        [StartCall.RouterTearDown]
    | none =>
      let c3 := c2 ++ [StartCall.WebserverStart]
      match env.WebserverStart with
      | some e =>
        runDeferred (some e) (some ("unable to start webserver: " ++ e)) c3
          [StartCall.ServerTearDown, StartCall.RouterTearDown]
      | none =>
        let c4 := c3 ++ [StartCall.UIStartWebServer]
        let err := env.received
        let ret :=
          match err with
          | some e => if !contains e "ignore me I am signal" then some e else none
          | none => none
        runDeferred err ret c4 [StartCall.ServerTearDown, StartCall.RouterTearDown]

/-- The function `Start()`, with the default `./config.json` of `-config`. -/
def Start : start :=
  { fs := { name := "start", actual := [] }, config := "./config.json", noIptables := false }

/-- A run in which every component starts and the signal goroutine then sends its
error on the channel. -/
def signalEnv : StartEnv :=
  { upgraded := false, Setup := fun _ => none, StartControlSocket := none,
    WebserverStart := none, received := some "ignore me I am signal" }

/-! ## Instances modelled from the specification -/

/-- Modelled from the spec: the derived authorization state of a device record
(section 3, "`attempts >= lockoutThreshold` ⇔ state is `Locked`"); the code that
derives it lives in `wag/database`, which is not among the source files. -/
def isLocked (lockoutThreshold attempts : Int) : Bool := decide (attempts ≥ lockoutThreshold)

/-- Modelled from the spec: the state of the Device Store (package `wag/database`,
not among the source files): the device records and whether the persistence
layer can be reached. -/
structure Store where
  devices : List Device
  up : Bool
deriving DecidableEq

/-- Modelled from the spec: `get(address) -> Device | NotFound`, projected on the
attempts counter. -/
def Store.attempts (s : Store) (address : String) : Option Int :=
  (s.devices.find? (fun d => decide (d.Address = address))).map (fun d => d.Attempts)

/-- Modelled from the spec: `database.Load`, which fails exactly when the
persistence layer cannot be reached. -/
def Store.Load (s : Store) : Store × Option String :=
  if s.up then (s, none) else (s, some "StoreError")

/-- Modelled from the spec: `delete(address) -> ok | NotFound`. -/
def Store.DeleteDevice (s : Store) (address : String) : Store × Option String :=
  if s.up = false then (s, some "StoreError")
  else if s.devices.any (fun d => decide (d.Address = address)) then
    ({ s with devices := s.devices.filter (fun d => !decide (d.Address = address)) }, none)
  else (s, some "NotFound")

/-- Modelled from the spec: `upsertAttempts(address, newValue) -> ok | StoreError`
(atomic), on an existing device (the precondition of `Lock` and `Reset`). -/
def Store.SetAttempts (s : Store) (address : String) (attempts : Int) : Store × Option String :=
  if s.up = false then (s, some "StoreError")
  else if s.devices.any (fun d => decide (d.Address = address)) then
    let update := fun (d : Device) =>
      if d.Address = address then { d with Attempts := attempts } else d
    ({ s with devices := s.devices.map update }, none)
  else (s, some "NotFound")

/-- Modelled from the spec: `list() -> sequence of Device`. -/
def Store.GetDevices (s : Store) : List Device × Option String :=
  if s.up then (s.devices, none) else ([], some "StoreError")

/-- Modelled from the spec: the control plane (package `wag/control`, not among
the source files): the sessions `(virtualAddress, realEndpoint)` of the Session
Tracker, the addresses with forwarding permission, and whether the control
socket can be reached. -/
structure Net where
  sessions : List (String × String)
  reachable : List String
  up : Bool
deriving DecidableEq

/-- Modelled from the spec: `Revoke(address)`, which removes forwarding permission
and tears down the session of the address in one operation. -/
def Net.Block (n : Net) (address : String) : Net × Option String :=
  if n.up = false then (n, some "NetworkError")
  else
    ({ n with sessions := n.sessions.filter (fun p => !decide (p.1 = address)),
              reachable := n.reachable.filter (fun a => !decide (a = address)) }, none)

/-- Modelled from the spec: `Session Tracker.List()`, rendered one pair per line. -/
def Net.Sessions (n : Net) : String × Option String :=
  if n.up then
    (String.intercalate "\n" (n.sessions.map (fun p => p.1 ++ "," ++ p.2)), none)
  else ("", some "NetworkError")

/-- Whether the address has a session in the Session Tracker. -/
def Net.hasSession (n : Net) (address : String) : Bool :=
  n.sessions.any (fun p => decide (p.1 = address))

/-- Whether the address has forwarding permission. -/
def Net.isReachable (n : Net) (address : String) : Bool :=
  n.reachable.any (fun a => decide (a = address))

/-- The packages of `Env`, instantiated with the store and control plane modelled
from the specification, for a configured lockout threshold. -/
def specEnv (lockout : Int) : Env Store Net where
  Lockout := lockout
  Load := Store.Load
  DeleteDevice := Store.DeleteDevice
  SetAttempts := Store.SetAttempts
  GetDevices := Store.GetDevices
  Block := Net.Block
  Sessions := Net.Sessions

/-- A device of user `alice` at `10.0.0.2`, enforcing MFA, with two failed attempts. -/
def dev1 : Device :=
  { Username := "alice", Address := "10.0.0.2", Publickey := "pk1", Enforcing := true, Attempts := 2 }

/-- A device of user `bob` at `10.0.0.3`, not enforcing MFA. -/
def dev2 : Device :=
  { Username := "bob", Address := "10.0.0.3", Publickey := "pk2", Enforcing := false, Attempts := 0 }

/-- A world with both devices stored, a session and forwarding permission for
`10.0.0.2`, nothing printed and no call made. -/
def world0 : World Store Net where
  store := { devices := [dev1, dev2], up := true }
  net := { sessions := [("10.0.0.2", "203.0.113.7:51820")], reachable := ["10.0.0.2", "10.0.0.3"],
           up := true }
  stdout := []
  calls := []

/-- The world `world0` with the control socket unreachable. -/
def worldNetDown : World Store Net :=
  { world0 with net := { world0.net with up := false } }

/-- The command value for an action on an address, as `Run` receives it. -/
def cmd (action address : String) : devices :=
  { fs := { name := "devices", actual := [] }, address := address, action := action }

/-! ## Theorems about devices.Run -/

theorem wrapInt_of_inRange (x : Int) (h1 : minInt ≤ x) (h2 : x ≤ maxInt) : wrapInt x = x := by
  unfold wrapInt
  unfold minInt at h1
  unfold maxInt at h2
  omega

theorem addInt_one (x : Int) (h1 : minInt ≤ x) (h2 : x < maxInt) : addInt x 1 = x + 1 := by
  unfold addInt
  apply wrapInt_of_inRange
  · unfold minInt at *; omega
  · unfold maxInt at *; omega

/-- C1, as stated, fails: with `Lockout` the largest `int`, the sum `Lockout + 1`
wraps to the smallest `int`. The `lock` run for the stored device `10.0.0.2`
succeeds, prints `OK`, and leaves its attempts at that value, which is below
the lockout threshold: the device is not Locked. -/
theorem lock_at_maxInt_not_locked :
    (devices.Run (specEnv maxInt) world0 (cmd "lock" "10.0.0.2")).1 = none
      ∧ (devices.Run (specEnv maxInt) world0 (cmd "lock" "10.0.0.2")).2.stdout = ["OK\n"]
      ∧ Store.attempts (devices.Run (specEnv maxInt) world0 (cmd "lock" "10.0.0.2")).2.store
          "10.0.0.2" = some minInt
      ∧ ¬ (minInt ≥ maxInt)
      ∧ isLocked maxInt minInt = false := by
  decide

/-- C1, amended: when `Lockout` is an `int` below the largest one, a `lock` run
whose store write succeeds leaves the stored attempts of the device at
`Lockout + 1`, a value at or above the lockout threshold (the device is Locked
whatever its attempts were before), and then invokes `control.Block` for the
same address: the control plane it leaves and the error it returns are those
of that `Block` call, made after the one store write. The store is any
implementation whose successful `SetAttempts` is read back by `attemptsOf`. -/
theorem lock_forces_locked_then_blocks {σ ν : Type} (env : Env σ ν)
    (attemptsOf : σ → String → Option Int) (w : World σ ν) (g : devices)
    (hcontract : ∀ s a n, (env.SetAttempts s a n).2 = none →
      attemptsOf (env.SetAttempts s a n).1 a = some n)
    (hlo : minInt ≤ env.Lockout) (hhi : env.Lockout < maxInt)
    (haction : g.action = "lock")
    (hok : (env.SetAttempts w.store g.address (env.Lockout + 1)).2 = none) :
    attemptsOf (devices.Run env w g).2.store g.address = some (env.Lockout + 1)
      ∧ (devices.Run env w g).2.store
          = (env.SetAttempts w.store g.address (env.Lockout + 1)).1
      ∧ env.Lockout + 1 ≥ env.Lockout
      ∧ isLocked env.Lockout (env.Lockout + 1) = true
      ∧ (devices.Run env w g).2.net = (env.Block w.net g.address).1
      ∧ (devices.Run env w g).1 = (env.Block w.net g.address).2
      ∧ (devices.Run env w g).2.calls
          = w.calls ++ [Call.SetAttempts g.address (env.Lockout + 1), Call.Block g.address] := by
  have hadd : addInt env.Lockout 1 = env.Lockout + 1 := addInt_one _ hlo hhi
  have hstore := hcontract w.store g.address (env.Lockout + 1) hok
  refine ⟨?_, ?_, by omega, by simp [isLocked], ?_, ?_, ?_⟩ <;>
    simp only [devices.Run, haction, hadd, hok] <;>
    cases hb : (env.Block w.net g.address).2 <;> simp [hstore]

/-- The concrete store reads back a successful `SetAttempts`. -/
theorem Store.find_after_update (l : List Device) (a : String) (n : Int)
    (h : l.any (fun d => decide (d.Address = a)) = true) :
    ((l.map (fun (d : Device) => if d.Address = a then { d with Attempts := n } else d)).find?
      (fun d => decide (d.Address = a))).map (fun d => d.Attempts) = some n := by
  induction l with
  | nil => simp at h
  | cons d l ih =>
    by_cases hd : d.Address = a
    · simp [hd]
    · have hl : l.any (fun d => decide (d.Address = a)) = true := by
        simpa [hd] using h
      simpa [hd] using ih hl

theorem Store.setAttempts_readback (s : Store) (a : String) (n : Int)
    (h : (Store.SetAttempts s a n).2 = none) :
    Store.attempts (Store.SetAttempts s a n).1 a = some n := by
  unfold Store.SetAttempts at h ⊢
  by_cases hup : s.up = false
  · simp [hup] at h
  · by_cases hany : s.devices.any (fun d => decide (d.Address = a)) = true
    · simp only [hup, hany, if_true, if_false, Store.attempts]
      exact Store.find_after_update s.devices a n hany
    · simp [hup, hany] at h

theorem lock_forces_locked_then_blocks_witness :
    ((specEnv 5).SetAttempts world0.store "10.0.0.2" 6).2 = none
      ∧ Store.attempts world0.store "10.0.0.2" = some 2
      ∧ Store.attempts (devices.Run (specEnv 5) world0 (cmd "lock" "10.0.0.2")).2.store "10.0.0.2"
          = some 6
      ∧ isLocked 5 6 = true
      ∧ Net.hasSession world0.net "10.0.0.2" = true
      ∧ Net.hasSession (devices.Run (specEnv 5) world0 (cmd "lock" "10.0.0.2")).2.net "10.0.0.2"
          = false
      ∧ (devices.Run (specEnv 5) world0 (cmd "lock" "10.0.0.2")).2.calls
          = [Call.SetAttempts "10.0.0.2" 6, Call.Block "10.0.0.2"] := by
  have h := lock_forces_locked_then_blocks (specEnv 5) Store.attempts world0
    (cmd "lock" "10.0.0.2") Store.setAttempts_readback (by decide) (by decide) rfl (by decide)
  refine ⟨by decide, by decide, h.1, h.2.2.2.1, by decide, ?_, h.2.2.2.2.2.2⟩
  rw [h.2.2.2.2.1]
  decide

/-- C2: when the store operation of a `del` or `lock` run fails, `Run` returns a
non-nil error built from the store's error, its only call is that store
operation (`control.Block` is not called), nothing is printed (no `OK`) and the
control plane is left untouched. -/
theorem store_failure_aborts_run {σ ν : Type} (env : Env σ ν) (w : World σ ν) (g : devices)
    (e : String)
    (h : (g.action = "del" ∧ (env.DeleteDevice w.store g.address).2 = some e)
      ∨ (g.action = "lock"
          ∧ (env.SetAttempts w.store g.address (addInt env.Lockout 1)).2 = some e)) :
    (devices.Run env w g).1 ≠ none
      ∧ (devices.Run env w g).1
          = some ((if g.action = "del" then "Could not delete token: "
              else "Could not lock device: ") ++ e)
      ∧ (devices.Run env w g).2.calls
          = w.calls ++ [if g.action = "del" then Call.DeleteDevice g.address
              else Call.SetAttempts g.address (addInt env.Lockout 1)]
      ∧ (∀ a, Call.Block a ∉ (devices.Run env w g).2.calls.drop w.calls.length)
      ∧ (devices.Run env w g).2.stdout = w.stdout
      ∧ (devices.Run env w g).2.net = w.net := by
  rcases h with ⟨ha, hf⟩ | ⟨ha, hf⟩
  · simp [devices.Run, ha, hf]
  · simp [devices.Run, ha, hf]

theorem store_failure_aborts_run_witness :
    ((devices.Run (specEnv 5) world0 (cmd "del" "10.0.0.9")).1
        = some "Could not delete token: NotFound"
      ∧ (devices.Run (specEnv 5) world0 (cmd "del" "10.0.0.9")).2.calls
        = [Call.DeleteDevice "10.0.0.9"])
    ∧ ((devices.Run (specEnv 5) world0 (cmd "lock" "10.0.0.9")).1
        = some "Could not lock device: NotFound"
      ∧ (devices.Run (specEnv 5) world0 (cmd "lock" "10.0.0.9")).2.calls
        = [Call.SetAttempts "10.0.0.9" 6]) := by
  have hdel := store_failure_aborts_run (specEnv 5) world0 (cmd "del" "10.0.0.9") "NotFound"
    (Or.inl ⟨rfl, by decide⟩)
  have hlock := store_failure_aborts_run (specEnv 5) world0 (cmd "lock" "10.0.0.9") "NotFound"
    (Or.inr ⟨rfl, by decide⟩)
  exact ⟨⟨hdel.2.1, hdel.2.2.1⟩, ⟨hlock.2.1, hlock.2.2.1⟩⟩

/-- C3: when the store mutation of a `del` or `lock` run succeeded and
`control.Block` then fails, `Run` returns the error of `Block` and the store is
exactly the one the mutation produced: the calls of the run are the one store
mutation followed by `Block`, with no further store write, and nothing is
printed. -/
theorem block_failure_keeps_store_mutation {σ ν : Type} (env : Env σ ν) (w : World σ ν)
    (g : devices) (e : String)
    (h : (g.action = "del" ∧ (env.DeleteDevice w.store g.address).2 = none)
      ∨ (g.action = "lock"
          ∧ (env.SetAttempts w.store g.address (addInt env.Lockout 1)).2 = none))
    (hblock : (env.Block w.net g.address).2 = some e) :
    (devices.Run env w g).1 = some e
      ∧ (devices.Run env w g).2.store
          = (if g.action = "del" then (env.DeleteDevice w.store g.address).1
              else (env.SetAttempts w.store g.address (addInt env.Lockout 1)).1)
      ∧ (devices.Run env w g).2.calls
          = w.calls ++ [if g.action = "del" then Call.DeleteDevice g.address
              else Call.SetAttempts g.address (addInt env.Lockout 1), Call.Block g.address]
      ∧ (devices.Run env w g).2.stdout = w.stdout := by
  rcases h with ⟨ha, hf⟩ | ⟨ha, hf⟩
  · simp [devices.Run, ha, hf, hblock]
  · simp [devices.Run, ha, hf, hblock]

theorem block_failure_keeps_store_mutation_witness :
    ((devices.Run (specEnv 5) worldNetDown (cmd "del" "10.0.0.2")).1 = some "NetworkError"
      ∧ (devices.Run (specEnv 5) worldNetDown (cmd "del" "10.0.0.2")).2.store
        = { devices := [dev2], up := true })
    ∧ ((devices.Run (specEnv 5) worldNetDown (cmd "lock" "10.0.0.2")).1 = some "NetworkError"
      ∧ (devices.Run (specEnv 5) worldNetDown (cmd "lock" "10.0.0.2")).2.store
        = { devices := [{ dev1 with Attempts := 6 }, dev2], up := true }) := by
  have hdel := block_failure_keeps_store_mutation (specEnv 5) worldNetDown
    (cmd "del" "10.0.0.2") "NetworkError" (Or.inl ⟨rfl, by decide⟩) (by decide)
  have hlock := block_failure_keeps_store_mutation (specEnv 5) worldNetDown
    (cmd "lock" "10.0.0.2") "NetworkError" (Or.inr ⟨rfl, by decide⟩) (by decide)
  exact ⟨⟨hdel.1, hdel.2.1.trans (by decide)⟩, ⟨hlock.1, hlock.2.1.trans (by decide)⟩⟩

/-- C4: a successful `reset` run sets the stored attempts of the device to 0,
whatever they were, and grants nothing: its only call is the one store write
`SetAttempts(address, 0)`, no control-plane call is made, and the control plane
(sessions and enforcement) is the same after the run as before it. -/
theorem reset_zeroes_attempts_only {σ ν : Type} (env : Env σ ν)
    (attemptsOf : σ → String → Option Int) (w : World σ ν) (g : devices)
    (hcontract : ∀ s a n, (env.SetAttempts s a n).2 = none →
      attemptsOf (env.SetAttempts s a n).1 a = some n)
    (haction : g.action = "reset")
    (hok : (env.SetAttempts w.store g.address 0).2 = none) :
    (devices.Run env w g).1 = none
      ∧ attemptsOf (devices.Run env w g).2.store g.address = some 0
      ∧ (devices.Run env w g).2.calls = w.calls ++ [Call.SetAttempts g.address 0]
      ∧ (devices.Run env w g).2.net = w.net
      ∧ (devices.Run env w g).2.stdout = w.stdout ++ ["OK\n"] := by
  have hstore := hcontract w.store g.address 0 hok
  simp [devices.Run, haction, hok, hstore, println]

theorem reset_zeroes_attempts_only_witness :
    Store.attempts world0.store "10.0.0.2" = some 2
      ∧ (devices.Run (specEnv 5) world0 (cmd "reset" "10.0.0.2")).1 = none
      ∧ Store.attempts (devices.Run (specEnv 5) world0 (cmd "reset" "10.0.0.2")).2.store
          "10.0.0.2" = some 0
      ∧ (devices.Run (specEnv 5) world0 (cmd "reset" "10.0.0.2")).2.net = world0.net := by
  have h := reset_zeroes_attempts_only (specEnv 5) Store.attempts world0
    (cmd "reset" "10.0.0.2") Store.setAttempts_readback rfl (by decide)
  exact ⟨by decide, h.1, h.2.1, h.2.2.2.1⟩

/-- C5, as stated, fails: the device at `10.0.0.2` has an active session and
forwarding permission, the `reset` run for it succeeds, and afterwards it still
holds both. -/
theorem reset_leaves_active_session :
    Net.hasSession world0.net "10.0.0.2" = true
      ∧ (devices.Run (specEnv 5) world0 (cmd "reset" "10.0.0.2")).1 = none
      ∧ Net.hasSession (devices.Run (specEnv 5) world0 (cmd "reset" "10.0.0.2")).2.net
          "10.0.0.2" = true
      ∧ Net.isReachable (devices.Run (specEnv 5) world0 (cmd "reset" "10.0.0.2")).2.net
          "10.0.0.2" = true := by
  decide

/-- C5, amended: a successful `reset` run for a device that has an active
session leaves the control plane exactly as it was, so the device still holds
its session (and whatever else the control plane records about any address is
unchanged). The only effect of the run on the store is the single write
`SetAttempts(address, 0)`, after which the stored attempts of the device are 0;
no `control.Block` call is made. -/
theorem reset_preserves_sessions {σ ν : Type} (env : Env σ ν) (observe : ν → String → Bool)
    (attemptsOf : σ → String → Option Int) (w : World σ ν) (g : devices)
    (hcontract : ∀ s a n, (env.SetAttempts s a n).2 = none →
      attemptsOf (env.SetAttempts s a n).1 a = some n)
    (haction : g.action = "reset")
    (hok : (env.SetAttempts w.store g.address 0).2 = none)
    (hsession : observe w.net g.address = true) :
    (devices.Run env w g).1 = none
      ∧ observe (devices.Run env w g).2.net g.address = true
      ∧ (devices.Run env w g).2.net = w.net
      ∧ (devices.Run env w g).2.store = (env.SetAttempts w.store g.address 0).1
      ∧ attemptsOf (devices.Run env w g).2.store g.address = some 0
      ∧ (devices.Run env w g).2.calls = w.calls ++ [Call.SetAttempts g.address 0]
      ∧ (∀ a, Call.Block a ∉ (devices.Run env w g).2.calls.drop w.calls.length) := by
  have hstore := hcontract w.store g.address 0 hok
  simp [devices.Run, haction, hok, hstore, hsession]

theorem reset_preserves_sessions_witness :
    Net.hasSession world0.net "10.0.0.2" = true
      ∧ Store.attempts world0.store "10.0.0.2" = some 2
      ∧ (devices.Run (specEnv 5) world0 (cmd "reset" "10.0.0.2")).1 = none
      ∧ Net.hasSession (devices.Run (specEnv 5) world0 (cmd "reset" "10.0.0.2")).2.net
          "10.0.0.2" = true
      ∧ Store.attempts (devices.Run (specEnv 5) world0 (cmd "reset" "10.0.0.2")).2.store
          "10.0.0.2" = some 0
      ∧ (devices.Run (specEnv 5) world0 (cmd "reset" "10.0.0.2")).2.calls
          = [Call.SetAttempts "10.0.0.2" 0] := by
  have h := reset_preserves_sessions (specEnv 5) Net.hasSession Store.attempts world0
    (cmd "reset" "10.0.0.2") Store.setAttempts_readback rfl (by decide) (by decide)
  exact ⟨by decide, by decide, h.1, h.2.1, h.2.2.2.2.1, h.2.2.2.2.2.1⟩

/-- C8: when the store returns the device list `ds`, the `list` run prints the
header line `username,address,publickey,enforcingmfa,authattempts` and then, for
each device of `ds` in order, one line made of its username, address, public
key, enforcing flag and attempts joined by commas. Its only call is
`database.GetDevices`: the store and the control plane are unchanged. -/
theorem list_prints_header_then_devices {σ ν : Type} (env : Env σ ν) (w : World σ ν)
    (g : devices) (ds : List Device) (haction : g.action = "list")
    (hok : env.GetDevices w.store = (ds, none)) :
    (devices.Run env w g).1 = none
      ∧ (devices.Run env w g).2.stdout
          = w.stdout ++ ("username,address,publickey,enforcingmfa,authattempts\n"
              :: ds.map (fun d => d.Username ++ "," ++ d.Address ++ "," ++ d.Publickey ++ ","
                  ++ fmtBool d.Enforcing ++ "," ++ fmtInt d.Attempts ++ "\n"))
      ∧ (devices.Run env w g).2.stdout.length = w.stdout.length + 1 + ds.length
      ∧ (devices.Run env w g).2.calls = w.calls ++ [Call.GetDevices]
      ∧ (devices.Run env w g).2.store = w.store
      ∧ (devices.Run env w g).2.net = w.net := by
  have hdl : deviceLine = fun d => d.Username ++ "," ++ d.Address ++ "," ++ d.Publickey ++ ","
      ++ fmtBool d.Enforcing ++ "," ++ fmtInt d.Attempts ++ "\n" := by
    funext d
    rfl
  simp [devices.Run, haction, hok, println, hdl]
  omega

theorem list_prints_header_then_devices_witness :
    (specEnv 5).GetDevices world0.store = ([dev1, dev2], none)
      ∧ (devices.Run (specEnv 5) world0 (cmd "list" "")).2.stdout
          = ["username,address,publickey,enforcingmfa,authattempts\n",
             "alice,10.0.0.2,pk1,true,2\n", "bob,10.0.0.3,pk2,false,0\n"] := by
  have h := list_prints_header_then_devices (specEnv 5) world0 (cmd "list" "") [dev1, dev2] rfl
    (by decide)
  exact ⟨by decide, h.2.1.trans (by decide)⟩

/-! ## Theorems about devices.Init -/

theorem toLower_actions :
    toLower "" = "" ∧ toLower "del" = "del" ∧ toLower "list" = "list" ∧ toLower "lock" = "lock"
      ∧ toLower "reset" = "reset" ∧ toLower "sessions" = "sessions" := by
  decide

/-- The walk of `Visit` with the function literal of `Init`, followed by
`strings.ToLower`, yields the action flag that comes last by name. -/
theorem visit_selects_last (fs : FlagSet) :
    toLower (fs.Visit visitAction "") = selectedAction fs.actual := by
  obtain ⟨h0, h1, h2, h3, h4, h5⟩ := toLower_actions
  unfold FlagSet.Visit formalSorted selectedAction
  by_cases a1 : "del" ∈ fs.actual <;> by_cases a2 : "device" ∈ fs.actual <;>
  by_cases a3 : "list" ∈ fs.actual <;> by_cases a4 : "lock" ∈ fs.actual <;>
  by_cases a5 : "reset" ∈ fs.actual <;> by_cases a6 : "sessions" ∈ fs.actual <;>
  simp [a1, a2, a3, a4, a5, a6, visitAction, h0, h1, h2, h3, h4, h5]

/-- What `Init` does on a fresh command once the arguments have parsed. -/
theorem init_of_parsed {σ ν : Type} (env : Env σ ν) (w : World σ ν) (args : List String)
    (hparse : (Devices.fs.Parse Devices.address args).2.2 = none) :
    devices.Init env w Devices args
      = (let p := Devices.fs.Parse Devices.address args
         let g3 : devices := { fs := p.1, address := p.2.1, action := selectedAction p.1.actual }
         if g3.action = "del" ∨ g3.action = "reset" ∨ g3.action = "lock" then
           if g3.address = "" then (some "Device must be supplied", g3, w)
           else devices.loadDatabase env w g3
         else if g3.action = "list" ∨ g3.action = "sessions" then
           devices.loadDatabase env w g3
         else (some "Invalid action choice", g3, w)) := by
  have hv := visit_selects_last (Devices.fs.Parse Devices.address args).1
  have hact : Devices.action = "" := rfl
  simp only [devices.Init, hparse, hact, hv]

theorem selectedAction_cases (actual : List String) :
    selectedAction actual = "sessions" ∨ selectedAction actual = "reset"
      ∨ selectedAction actual = "lock" ∨ selectedAction actual = "list"
      ∨ selectedAction actual = "del" ∨ selectedAction actual = "" := by
  unfold selectedAction
  split_ifs <;> simp

theorem selectedAction_of_none (actual : List String) (h : ∀ n ∈ boolFlags, n ∉ actual) :
    selectedAction actual = "" := by
  have h1 := h "sessions" (by decide)
  have h2 := h "reset" (by decide)
  have h3 := h "lock" (by decide)
  have h4 := h "list" (by decide)
  have h5 := h "del" (by decide)
  simp [selectedAction, h1, h2, h3, h4, h5]

/-- C6, as stated, fails: the arguments `-list -sessions` set two action flags,
and `Init` accepts them, returning no error with the action `sessions`. -/
theorem init_accepts_two_action_flags :
    "list" ∈ (devices.Init (specEnv 5) world0 Devices ["-list", "-sessions"]).2.1.fs.actual
      ∧ "sessions" ∈ (devices.Init (specEnv 5) world0 Devices ["-list", "-sessions"]).2.1.fs.actual
      ∧ (devices.Init (specEnv 5) world0 Devices ["-list", "-sessions"]).1 = none
      ∧ (devices.Init (specEnv 5) world0 Devices ["-list", "-sessions"]).2.1.action = "sessions" := by
  decide

/-- C6, amended: `Init` has no check that the action flags exclude each other.
For every argument list that parses, however many action flags it sets, `Init`
selects the action flag whose name is last in lexicographic order among those
set (`sessions`, then `reset`, `lock`, `list`, `del`) and returns an error only
when no action flag is set, when the selected action is `del`, `reset` or `lock`
with an empty `-device`, or when the database cannot be loaded. -/
theorem init_selects_last_action_flag {σ ν : Type} (env : Env σ ν) (w : World σ ν)
    (args : List String)
    (hparse : (Devices.fs.Parse Devices.address args).2.2 = none) :
    (devices.Init env w Devices args).2.1.action
        = selectedAction (Devices.fs.Parse Devices.address args).1.actual
      ∧ ((devices.Init env w Devices args).1 = none ↔
          (selectedAction (Devices.fs.Parse Devices.address args).1.actual ≠ ""
            ∧ ¬ ((selectedAction (Devices.fs.Parse Devices.address args).1.actual = "del"
                  ∨ selectedAction (Devices.fs.Parse Devices.address args).1.actual = "reset"
                  ∨ selectedAction (Devices.fs.Parse Devices.address args).1.actual = "lock")
                ∧ (Devices.fs.Parse Devices.address args).2.1 = "")
            ∧ (env.Load w.store).2 = none)) := by
  rw [init_of_parsed env w args hparse]
  dsimp only
  generalize (Devices.fs.Parse Devices.address args).1 = fs
  generalize (Devices.fs.Parse Devices.address args).2.1 = a
  rcases selectedAction_cases fs.actual with h | h | h | h | h | h <;>
    by_cases ha : a = "" <;>
    cases hl : (env.Load w.store).2 <;>
    simp [h, ha, hl, devices.loadDatabase]

theorem init_selects_last_action_flag_witness :
    (Devices.fs.Parse Devices.address ["-del", "-device", "10.0.0.2", "-reset", "-lock"]).2.2 = none
      ∧ (devices.Init (specEnv 5) world0 Devices
          ["-del", "-device", "10.0.0.2", "-reset", "-lock"]).2.1.action = "reset" := by
  have h := init_selects_last_action_flag (specEnv 5) world0
    ["-del", "-device", "10.0.0.2", "-reset", "-lock"] (by decide)
  exact ⟨by decide, h.1.trans (by decide)⟩

/-- C7: for every argument list that parses, with `actual` the flags it sets and
`address` the value it gives to `-device`: when the action flag selected among
`actual` is `del`, `reset` or `lock` and `address` is empty, `Init` returns
`Device must be supplied` without loading the database (no call, store
untouched); when `actual` holds no action flag, it returns `Invalid action
choice`, again without loading the database; and when the selected action flag
is `list` or `sessions`, it goes on to load the database whatever `address` is,
and returns an error only if the load fails. -/
theorem init_validates_action_and_address {σ ν : Type} (env : Env σ ν) (w : World σ ν)
    (args : List String)
    (hparse : (Devices.fs.Parse Devices.address args).2.2 = none) :
    ((selectedAction (Devices.fs.Parse Devices.address args).1.actual = "del"
          ∨ selectedAction (Devices.fs.Parse Devices.address args).1.actual = "reset"
          ∨ selectedAction (Devices.fs.Parse Devices.address args).1.actual = "lock") →
        (Devices.fs.Parse Devices.address args).2.1 = "" →
        (devices.Init env w Devices args).1 = some "Device must be supplied"
          ∧ (devices.Init env w Devices args).2.2.calls = w.calls
          ∧ (devices.Init env w Devices args).2.2.store = w.store)
      ∧ ((∀ n ∈ boolFlags, n ∉ (Devices.fs.Parse Devices.address args).1.actual) →
        (devices.Init env w Devices args).1 = some "Invalid action choice"
          ∧ (devices.Init env w Devices args).2.2.calls = w.calls
          ∧ (devices.Init env w Devices args).2.2.store = w.store)
      ∧ ((selectedAction (Devices.fs.Parse Devices.address args).1.actual = "list"
          ∨ selectedAction (Devices.fs.Parse Devices.address args).1.actual = "sessions") →
        (devices.Init env w Devices args).1
            = (env.Load w.store).2.map (fun e => "Cannot load database: " ++ e)
          ∧ (devices.Init env w Devices args).2.2.calls = w.calls ++ [Call.Load]
          ∧ (devices.Init env w Devices args).2.1.address
              = (Devices.fs.Parse Devices.address args).2.1) := by
  rw [init_of_parsed env w args hparse]
  dsimp only
  refine ⟨?_, ?_, ?_⟩
  · generalize (Devices.fs.Parse Devices.address args).1 = fs
    generalize (Devices.fs.Parse Devices.address args).2.1 = a
    rcases selectedAction_cases fs.actual with h | h | h | h | h | h <;>
      by_cases ha : a = "" <;>
      cases hl : (env.Load w.store).2 <;>
      simp [h, ha, hl, devices.loadDatabase]
  · intro hnone
    have h := selectedAction_of_none _ hnone
    simp [h]
  · generalize (Devices.fs.Parse Devices.address args).1 = fs
    generalize (Devices.fs.Parse Devices.address args).2.1 = a
    rcases selectedAction_cases fs.actual with h | h | h | h | h | h <;>
      by_cases ha : a = "" <;>
      cases hl : (env.Load w.store).2 <;>
      simp [h, ha, hl, devices.loadDatabase]

theorem init_validates_action_and_address_witness :
    ((devices.Init (specEnv 5) world0 Devices ["-del"]).1 = some "Device must be supplied"
        ∧ (devices.Init (specEnv 5) world0 Devices ["-del"]).2.2.calls = [])
      ∧ ((devices.Init (specEnv 5) world0 Devices ["-reset"]).1 = some "Device must be supplied"
        ∧ (devices.Init (specEnv 5) world0 Devices ["-reset"]).2.2.calls = [])
      ∧ ((devices.Init (specEnv 5) world0 Devices ["-lock", "-device="]).1
          = some "Device must be supplied"
        ∧ (devices.Init (specEnv 5) world0 Devices ["-lock", "-device="]).2.2.calls = [])
      ∧ ((devices.Init (specEnv 5) world0 Devices ["-device", "10.0.0.2"]).1
          = some "Invalid action choice"
        ∧ (devices.Init (specEnv 5) world0 Devices ["-device", "10.0.0.2"]).2.2.calls = [])
      ∧ ((devices.Init (specEnv 5) world0 Devices ["-list"]).1 = none
        ∧ (devices.Init (specEnv 5) world0 Devices ["-list"]).2.2.calls = [Call.Load])
      ∧ ((devices.Init (specEnv 5) world0 Devices ["-sessions"]).1 = none
        ∧ (devices.Init (specEnv 5) world0 Devices ["-sessions"]).2.2.calls = [Call.Load]) := by
  have hdel := (init_validates_action_and_address (specEnv 5) world0 ["-del"] (by decide)).1
    (by decide) (by decide)
  have hreset := (init_validates_action_and_address (specEnv 5) world0 ["-reset"] (by decide)).1
    (by decide) (by decide)
  have hlock := (init_validates_action_and_address (specEnv 5) world0 ["-lock", "-device="]
    (by decide)).1 (by decide) (by decide)
  have hnone := (init_validates_action_and_address (specEnv 5) world0 ["-device", "10.0.0.2"]
    (by decide)).2.1 (by decide)
  have hlist := (init_validates_action_and_address (specEnv 5) world0 ["-list"]
    (by decide)).2.2 (by decide)
  have hsessions := (init_validates_action_and_address (specEnv 5) world0 ["-sessions"]
    (by decide)).2.2 (by decide)
  exact ⟨⟨hdel.1, hdel.2.1⟩, ⟨hreset.1, hreset.2.1⟩, ⟨hlock.1, hlock.2.1⟩,
    ⟨hnone.1, hnone.2.1⟩, ⟨hlist.1.trans (by decide), hlist.2.1⟩,
    ⟨hsessions.1.trans (by decide), hsessions.2.1⟩⟩

/-! ## Theorems about start.Run -/

theorem runDeferred_of_some (e : String) (ret : Option String) (calls deferred : List StartCall) :
    (∀ x ∈ (runDeferred (some e) ret calls deferred).handlerErr, x ≠ none)
      ∧ (runDeferred (some e) ret calls deferred).panicked = false := by
  induction deferred generalizing calls with
  | nil => simp [runDeferred]
  | cons t ds ih =>
    by_cases hc : (contains e "listen unix" && contains e "address already in use") = true
    · have h := ih (calls ++ [])
      simp only [runDeferred, teardownHandler, hc]
      simpa using h
    · have h := ih (calls ++ [t])
      simp only [runDeferred, teardownHandler, hc]
      simpa using h

/-- C10: when the value received from the error channel is a non-nil error, then
on every exit path of `start.Run` each deferred teardown handler that runs reads
a non-nil `err`, so no handler panics on `err.Error()`. -/
theorem teardown_handlers_read_nonnil_err (env : StartEnv) (g : start)
    (hreceived : env.received ≠ none) :
    (∀ x ∈ (start.Run env g).handlerErr, x ≠ none) ∧ (start.Run env g).panicked = false := by
  obtain ⟨e, he⟩ := Option.ne_none_iff_exists'.mp hreceived
  unfold start.Run
  cases h1 : env.Setup (!(if env.upgraded then { g with noIptables := true } else g).noIptables)
  · cases h2 : env.StartControlSocket
    · cases h3 : env.WebserverStart
      · simp only [h1, h2, h3, he]
        exact runDeferred_of_some e _ _ _
      · simp only [h1, h2, h3]
        exact runDeferred_of_some _ _ _ _
    · simp only [h1, h2]
      exact runDeferred_of_some _ _ _ _
  · simp only [h1]
    exact runDeferred_of_some _ _ _ _

theorem teardown_handlers_read_nonnil_err_witness :
    signalEnv.received ≠ none
      ∧ (start.Run signalEnv Start).handlerErr
          = [some "ignore me I am signal", some "ignore me I am signal"]
      ∧ (start.Run signalEnv Start).panicked = false := by
  have h := teardown_handlers_read_nonnil_err signalEnv Start (by decide)
  exact ⟨by decide, by decide, h.2⟩

end Wag
